import Mathlib

/-!
Verification development for the Phantom Subtitle Translator backend.

This file gives a shallow embedding, in Lean, of the batch translation
pipeline of the repository (translation service, Gemini agent service,
SRT parser utility, repository persistence and the core error types), and
proves the specification's claims about it.

Modelling conventions:
* JavaScript strings are Lean `String`s, with helpers on `List Char` where
  character-level reasoning is needed.
* External collaborators (the Gemini backend `callGemini`, the built-in
  `JSON.parse`, and the third-party `srt-parser-2` codec) are oracles
  collected in an `Env` structure; everything else is translated from the
  repository source.
* JavaScript numbers used for subtitle timing are modelled as rationals.
* Fallible code returns `Except Fault _` where the source throws.
* Concurrent chunk execution (`Promise.all`) is modelled by an explicit
  completion-order parameter: each chunk gets a list of task indices in the
  order the tasks finish; `Promise.all` rejects with the first rejection in
  completion order, and otherwise resolves results in task-index order.
-/

namespace PST

/-! ## JSON values (model of the data produced by `JSON.parse`) -/

/-- Model of a JavaScript JSON value, as produced by `JSON.parse`. -/
inductive Json where
  | null
  | bool (b : Bool)
  | num (n : Int)
  | str (s : String)
  | arr (xs : List Json)
  | obj (fields : List (String × Json))

/-- Depth fuel for recursion over nested `Json` values.  JSON documents of
depth above this bound are truncated by the string-conversion models; no
claim exercises depth anywhere near the bound. -/
def JDEPTH : Nat := 100

/-- Model of JavaScript string coercion `String(x)` for JSON values.
Inside arrays, `null` elements render as the empty string, following
`Array.prototype.join`. -/
def jsonToTextGo : Nat → Json → String
  | _, .str s => s
  | _, .num n => toString n
  | _, .bool true => "true"
  | _, .bool false => "false"
  | _, .null => "null"
  | 0, _ => ""
  | fuel + 1, .arr xs =>
      String.intercalate "," (xs.map (fun x =>
        match x with
        | .null => ""
        | y => jsonToTextGo fuel y))
  | _ + 1, .obj _ => "[object Object]"

/-- JavaScript string coercion of a JSON value. -/
def jsonToText (j : Json) : String := jsonToTextGo JDEPTH j

/-- Escape one character for JSON string output (model of the escaping done
by `JSON.stringify`; control characters other than newline are left as-is,
which no claim exercises). -/
def jsonEscapeChar (c : Char) : List Char :=
  if c == '"' then ['\\', '"']
  else if c == '\\' then ['\\', '\\']
  else if c == '\n' then ['\\', 'n']
  else [c]

/-- Quote a string as a JSON string literal. -/
def jsonQuote (s : String) : String :=
  ⟨'"' :: (s.data.foldr (fun c acc => jsonEscapeChar c ++ acc) ['"'])⟩

/-- Model of `JSON.stringify` (depth-limited by fuel). -/
def jsonStringifyGo : Nat → Json → String
  | _, .null => "null"
  | _, .bool true => "true"
  | _, .bool false => "false"
  | _, .num n => toString n
  | _, .str s => jsonQuote s
  | 0, _ => ""
  | fuel + 1, .arr xs =>
      "[" ++ String.intercalate "," (xs.map (jsonStringifyGo fuel)) ++ "]"
  | fuel + 1, .obj fs =>
      "\x7b" ++
        String.intercalate ","
          (fs.map (fun f => jsonQuote f.1 ++ ":" ++ jsonStringifyGo fuel f.2)) ++
        "\x7d"

/-- Model of `JSON.stringify`. -/
def jsonStringify (j : Json) : String := jsonStringifyGo JDEPTH j

/-- Property lookup in a JSON object field list (first match wins). -/
def lookupField : List (String × Json) → String → Option Json
  | [], _ => none
  | f :: rest, k => if f.1 = k then some f.2 else lookupField rest k

/-- Model of JavaScript property access `parsed.translations`:
`none` models `undefined`. -/
def jsonGet : Json → String → Option Json
  | .obj fs, k => lookupField fs k
  | _, _ => none

/-- Model of JavaScript truthiness: `jsFalsy v = true` exactly when the
value is falsy (`null`, `false`, `0`, `""`). `undefined` is modelled as
`Option.none` at the use sites. -/
def jsFalsy : Json → Bool
  | .null => true
  | .bool false => true
  | .num 0 => true
  | .str "" => true
  | _ => false

/-- Model of the optional-chaining expression `x?.length` used by the agent
service when logging a mismatched response: arrays and strings have a
`length`; other values (and `undefined`/`null`) give `undefined`. -/
def jsLength : Option Json → Option Nat
  | some (.arr xs) => some xs.length
  | some (.str s) => some s.length
  | _ => none

/-! ## Fault taxonomy (model of `core/AppError.js`)

Each constructor records the data the source attaches to the thrown error
at the corresponding throw site:
* `notFound` — `NotFoundError(message)` (`NOT_FOUND`, 404);
* `badRequest` — `BadRequestError(message, { originalMessage })`
  (`BAD_REQUEST`, 400), the context's original library message when present;
* `jsonError` — `ApiError('Agent [name] returned malformed JSON.', 500,
  'AGENT_JSON_ERROR', { responseText })`, recording the agent name and the
  raw response text;
* `lengthMismatch` — `ApiError('Agent [name] returned a mismatched number
  of translations.', 500, 'AGENT_LENGTH_MISMATCH')`, together with the
  `expected`/`received` counts the service reports for the failed call. -/

/-- Operational faults raised by the translation core. -/
inductive Fault where
  | notFound (message : String)
  | badRequest (message : String) (originalMessage : Option String)
  | jsonError (agent : String) (responseText : String)
  | lengthMismatch (agent : String) (expected : Nat) (received : Option Nat)
deriving DecidableEq

/-! ## Character-level helpers (models of JavaScript string built-ins) -/

/-- Whitespace predicate used by the model of `String.prototype.trim`. -/
def wsChar (c : Char) : Bool := c.isWhitespace

/-- Model of `String.prototype.trim` on character lists. -/
def jsTrimCS (cs : List Char) : List Char :=
  ((cs.dropWhile wsChar).reverse.dropWhile wsChar).reverse

/-- Model of `String.prototype.trim`. -/
def jsTrimStr (s : String) : String := ⟨jsTrimCS s.data⟩

/-- Boolean prefix test on character lists. -/
def startsWithCS : List Char → List Char → Bool
  | [], _ => true
  | _ :: _, [] => false
  | p :: ps, c :: cs => p == c && startsWithCS ps cs

/-- Boolean suffix test on character lists. -/
def endsWithCS (suf cs : List Char) : Bool := startsWithCS suf.reverse cs.reverse

/-- Drop the last `k` characters. -/
def dropEndCS (k : Nat) (cs : List Char) : List Char := cs.take (cs.length - k)

/-- The backtick character (code point 96). -/
def backtick : Char := Char.ofNat 96

/-- Opening code fence `¬¬¬json` with a trailing newline (writing `¬` for
the backtick), as matched (greedily) by the agent service's first
regular expression. -/
def fenceOpenNl : List Char := [backtick, backtick, backtick, 'j', 's', 'o', 'n', '\n']

/-- Opening code fence without the optional newline. -/
def fenceOpen : List Char := [backtick, backtick, backtick, 'j', 's', 'o', 'n']

/-- Closing code fence preceded by a newline, as matched (greedily) by the
agent service's second regular expression. -/
def fenceCloseNl : List Char := ['\n', backtick, backtick, backtick]

/-- Closing code fence without the optional newline. -/
def fenceClose : List Char := [backtick, backtick, backtick]

/-- Model of the response clean-up performed by `parseJsonAgentResponse`:
`responseText.trim().replace(/^` then three backticks then
`json\n?/, '').replace(/\n?` then three backticks then `$/, '')`. -/
def stripFenceCS (cs : List Char) : List Char :=
  let t := jsTrimCS cs
  let t1 :=
    if startsWithCS fenceOpenNl t then t.drop fenceOpenNl.length
    else if startsWithCS fenceOpen t then t.drop fenceOpen.length
    else t
  if endsWithCS fenceCloseNl t1 then dropEndCS fenceCloseNl.length t1
  else if endsWithCS fenceClose t1 then dropEndCS fenceClose.length t1
  else t1

/-- Code-fence stripping on strings. -/
def stripFence (s : String) : String := ⟨stripFenceCS s.data⟩

/-- One step of the model of `text.replace(/<[^>]*>/g, '')`: on a `<` that
has a later `>`, the leftmost maximal tag (up to the first `>`) is removed;
a `<` with no later `>` cannot start a match and is kept.  Fuel is the
initial length of the list, which bounds the number of steps. -/
def stripTagsGo : Nat → List Char → List Char
  | 0, cs => cs
  | _ + 1, [] => []
  | fuel + 1, c :: rest =>
    if c == '<' && rest.any (fun d => d == '>') then
      stripTagsGo fuel ((rest.dropWhile (fun d => d != '>')).drop 1)
    else
      c :: stripTagsGo fuel rest

/-- Model of the HTML-tag-stripping replace in `_mapToSrtLine`. -/
def stripTags (cs : List Char) : List Char := stripTagsGo cs.length cs

/-- Digit run at the head of a character list. -/
def takeDigits (cs : List Char) : List Char := cs.takeWhile (fun c => c.isDigit)

/-- Value of a non-empty digit run; `none` models `NaN` for an empty run. -/
def digitsToNat (ds : List Char) : Option Nat :=
  if ds = [] then none
  else some (ds.foldl (fun acc c => acc * 10 + (c.toNat - 48)) 0)

/-- Model of `parseInt(s, 10)`: skip leading whitespace, optional sign,
then the maximal digit run; `none` models `NaN`. -/
def parseIntJs (s : String) : Option Int :=
  match s.data.dropWhile wsChar with
  | '-' :: rest => (digitsToNat (takeDigits rest)).map (fun n => -(n : Int))
  | '+' :: rest => (digitsToNat (takeDigits rest)).map (fun n => (n : Int))
  | t => (digitsToNat (takeDigits t)).map (fun n => (n : Int))

/-- Render a sequence number back to a string (`Number.prototype.toString`,
with `none` modelling `NaN`). -/
def seqToString : Option Int → String
  | some n => toString n
  | none => "NaN"

/-- Model of `x.toFixed(3)` followed by `parseFloat`: round to three
decimal places, ties away from the smaller value (ECMAScript picks the
larger candidate integer). -/
def roundTo3 (q : ℚ) : ℚ := (⌊q * 1000 + 1 / 2⌋ : ℚ) / 1000

/-- Model of `x.toFixed(2)` (used only when building the pacing-sync
prompt). -/
def toFixed2 (q : ℚ) : String :=
  let n : Int := ⌊q * 100 + 1 / 2⌋
  let a : Nat := n.natAbs
  let sign := if n < 0 then "-" else ""
  let frac := a % 100
  sign ++ toString (a / 100) ++ "." ++ (if frac < 10 then "0" else "") ++ toString frac

/-! ## SRT codec boundary (model of `core/srtParser.js`) -/

/-- Parsed subtitle line, the repository's internal `SrtLine` shape.
`sequence` is `parseInt` of the library id (`none` models `NaN`);
`duration` is the calculated duration in seconds. -/
structure SrtLine where
  sequence : Option Int
  startTime : String
  endTime : String
  duration : ℚ
  text : String
deriving DecidableEq

/-- Line object delivered by the third-party `srt-parser-2` library
(`fromSrt` output).  Its published `Line` shape is
`{ id, startTime, startSeconds, endTime, endSeconds, text }`: the
timestamp-to-seconds conversions are named `startSeconds`/`endSeconds`. -/
structure LibLine where
  id : String
  startTime : String
  startSeconds : ℚ
  endTime : String
  endSeconds : ℚ
  text : String

/-- The `libLine.startTimeSeconds` property access performed by
`_mapToSrtLine`: the library's line object carries no such property (its
conversion field is named `startSeconds`), so the access yields
`undefined` on every line. -/
def startTimeSecondsOf (_libLine : LibLine) : Option ℚ := none

/-- The `libLine.endTimeSeconds` property access performed by
`_mapToSrtLine`: the library's line object carries no such property (its
conversion field is named `endSeconds`), so the access yields `undefined`
on every line. -/
def endTimeSecondsOf (_libLine : LibLine) : Option ℚ := none

/-- JavaScript subtraction on possibly-missing numbers: an operand that is
`undefined` or `NaN` (`none`) makes the result `NaN` (`none`). -/
def jsSub : Option ℚ → Option ℚ → Option ℚ
  | some a, some b => some (a - b)
  | _, _ => none

/-- Line object handed back to the library for serialization
(`_mapFromSrtLine` output). -/
structure LibOutLine where
  id : String
  startTime : String
  endTime : String
  text : String
deriving DecidableEq

/-- Translation of `_mapToSrtLine`: compute
`duration = libLine.endTimeSeconds - libLine.startTimeSeconds`, map a `NaN`
difference to `0` (the `isNaN` guard) and otherwise round to three
decimals; parse the id as the sequence number and sanitize the text (strip
HTML tags, then trim).  Both property reads miss — the library exposes
`startSeconds`/`endSeconds`, not the names the repository reads — so the
difference is always `NaN` and every produced duration is `0`. -/
def mapToSrtLine (libLine : LibLine) : SrtLine :=
  { sequence := parseIntJs libLine.id
    startTime := libLine.startTime
    endTime := libLine.endTime
    duration :=
      match jsSub (endTimeSecondsOf libLine) (startTimeSecondsOf libLine) with
      | none => 0
      | some d => roundTo3 d
    text := ⟨jsTrimCS (stripTags libLine.text.data)⟩ }

/-- Translation of `_mapFromSrtLine`. -/
def mapFromSrtLine (srtLine : SrtLine) : LibOutLine :=
  { id := seqToString srtLine.sequence
    startTime := srtLine.startTime
    endTime := srtLine.endTime
    text := srtLine.text }

/-- External collaborators of the translation core, modelled as oracles:
* `gemini prompt modelName` — the raw text returned by `callGemini`
  (its internal transport retry loop is behind the oracle);
* `jparse` — `JSON.parse`, `none` modelling a parse exception;
* `fromSrt` — `srt-parser-2`'s `fromSrt`, `Except.error` modelling a
  library exception carrying its message;
* `toSrt` — `srt-parser-2`'s `toSrt` serializer. -/
structure Env where
  gemini : String → String → String
  jparse : String → Option Json
  fromSrt : String → Except String (List LibLine)
  toSrt : List LibOutLine → String

/-- Translation of `parseSrt`: reject blank content as a bad-request fault,
delegate to the library, wrap a library failure in a bad-request fault, and
map each library line to the internal shape. (The `typeof srtContent !==
'string'` disjunct of the source guard is vacuous here because the
embedding is typed.) -/
def parseSrt (E : Env) (srtContent : String) : Except Fault (List SrtLine) :=
  if jsTrimStr srtContent = "" then
    .error (.badRequest "SRT content must be a non-empty string." none)
  else
    match E.fromSrt srtContent with
    | .error msg => .error (.badRequest "Failed to parse malformed SRT content." (some msg))
    | .ok srtArray => .ok (srtArray.map mapToSrtLine)

/-- Translation of `toSrtPromptFormat`: each line rendered as
`sequence | text`, joined by newlines. -/
def toSrtPromptFormat (batch : List SrtLine) : String :=
  String.intercalate "\n"
    (batch.map (fun line => seqToString line.sequence ++ " | " ++ line.text))

/-! ## Agent service (model of `gemini.service.js`)

The constant instruction text of the prompts is abbreviated below (the
specification places prompt wording outside the verified contract); the
role-identifying openings and every piece of interpolated data are kept, in
source order. -/

/-- Configuration default for the blueprint-phase model
(environment-overridable; the default value from `config/index.js`). -/
def GEMINI_BLUEPRINT_MODEL : String := "gemini-2.5-flash-latest"

/-- Configuration default for the translation-phase model. -/
def GEMINI_TRANSLATION_MODEL : String := "gemini-2.5-flash-latest"

/-- Configuration default for the pacing-sync model. -/
def GEMINI_SYNC_MODEL : String := "gemini-2.5-pro-latest"

/-- Translation of `parseJsonAgentResponse`: trim and strip the code fence,
then parse; a parse failure becomes the malformed-JSON fault carrying the
agent name and the raw (unstripped) response text. -/
def parseJsonAgentResponse (jparse : String → Option Json)
    (responseText agentName : String) : Except Fault Json :=
  match jparse (stripFence responseText) with
  | some parsed => .ok parsed
  | none => .error (.jsonError agentName responseText)

/-- View of the parsed value's `translations` property as an array
(`Array.isArray` test). -/
def asJsonArray : Option Json → Option (List Json)
  | some (.arr xs) => some xs
  | _ => none

/-- Test for the JSON value `null` (property access on `null` throws in
JavaScript). -/
def isNullJson : Json → Bool
  | .null => true
  | _ => false

/-- Translation of `GeminiAgentService._callBatchAgent`: call the backend,
parse the response, and enforce the length contract: the `translations`
property must be an array of exactly `batch.length` elements, otherwise the
length-mismatch fault is raised with the agent name and the
expected/received counts reported by the service.  A parsed value of `null`
models the `TypeError` the source would raise on the property access
`parsed.translations`; it is represented as a malformed-JSON-shaped fault
distinct from a length mismatch only in that no claim exercises it. -/
def callBatchAgent (E : Env) (agentName prompt : String) (batch : List SrtLine)
    (modelName : String) : Except Fault (List Json) :=
  let responseText := E.gemini prompt modelName
  match parseJsonAgentResponse E.jparse responseText agentName with
  | .error f => .error f
  | .ok parsed =>
    if isNullJson parsed then .error (.jsonError agentName responseText)
    else
      match asJsonArray (jsonGet parsed "translations") with
      | some ts =>
          if ts.length = batch.length then .ok ts
          else .error (.lengthMismatch agentName batch.length
            (jsLength (jsonGet parsed "translations")))
      | none => .error (.lengthMismatch agentName batch.length
          (jsLength (jsonGet parsed "translations")))

/-- Model of `Array.prototype.join('\n')` on parsed translation values. -/
def joinJsonLines (xs : List Json) : String :=
  String.intercalate "\n" (xs.map (fun x =>
    match x with
    | .null => ""
    | y => jsonToText y))

/-- Prompt of the transcreate stage (constant text abbreviated). -/
def transcreatePrompt (batchSrt : String) (blueprint : Json) (tone : String) : String :=
  "You are a Master Transcreator. Adhering strictly to the provided Blueprint, transcreate the following SRT batch into fluent Persian.\n" ++
  "Previous Context: [No previous context for this batch]\n" ++
  "Blueprint: " ++ jsonStringify blueprint ++ "\n" ++
  "Tone: " ++ tone ++ "\n" ++
  "BATCH TO TRANSLATE:\n" ++ batchSrt

/-- Prompt of the edit stage (constant text abbreviated). -/
def editPrompt (batchSrt : String) (initialTranslations : List Json)
    (blueprint : Json) : String :=
  "You are a Senior Editor. Polish the provided Persian translation.\n" ++
  "ORIGINAL BATCH:\n" ++ batchSrt ++ "\n" ++
  "INITIAL TRANSLATION (to be edited):\n" ++ joinJsonLines initialTranslations ++ "\n" ++
  "Blueprint: " ++ jsonStringify blueprint

/-- Prompt of the QA stage (constant text abbreviated). -/
def qaPrompt (batchSrt : String) (editedTranslations : List Json)
    (blueprint : Json) : String :=
  "You are Head of QA. Perform a final review of the edited translation.\n" ++
  "ORIGINAL BATCH:\n" ++ batchSrt ++ "\n" ++
  "EDITED TRANSLATION (to be reviewed):\n" ++ joinJsonLines editedTranslations ++ "\n" ++
  "Blueprint: " ++ jsonStringify blueprint

/-- Per-line data block of the pacing-sync prompt:
`qaTranslations[index] || ''` with the line's sequence and duration. -/
def syncLineData (qaTranslations : List Json) (index : Nat) (line : SrtLine) : String :=
  let translatedLine :=
    match qaTranslations[index]? with
    | some v => if jsFalsy v then "" else jsonToText v
    | none => ""
  "L" ++ seqToString line.sequence ++ ":\n- Duration: " ++ toFixed2 line.duration ++
    "s\n- Translated Persian: \"" ++ translatedLine ++ "\""

/-- Index-threaded map building the pacing-sync data blocks. -/
def syncPromptData (qaTranslations : List Json) : Nat → List SrtLine → List String
  | _, [] => []
  | index, line :: rest =>
      syncLineData qaTranslations index line ::
        syncPromptData qaTranslations (index + 1) rest

/-- Prompt of the pacing-sync stage (constant text abbreviated). -/
def phantomSyncPrompt (batch : List SrtLine) (qaTranslations : List Json) : String :=
  "You are \"Phantom Sync\", a subtitle Pacing & Readability Analyst.\n" ++
  "Data for Analysis:\n" ++
  String.intercalate "\n" (syncPromptData qaTranslations 0 batch)

/-- Translation of `transcreateBatch`. -/
def transcreateBatch (E : Env) (batch : List SrtLine) (blueprint : Json)
    (tone : String) : Except Fault (List Json) :=
  let batchSrt := toSrtPromptFormat batch
  callBatchAgent E "transcreateBatch" (transcreatePrompt batchSrt blueprint tone)
    batch GEMINI_TRANSLATION_MODEL

/-- Translation of `editBatch`. -/
def editBatch (E : Env) (batch : List SrtLine) (initialTranslations : List Json)
    (blueprint : Json) : Except Fault (List Json) :=
  let batchSrt := toSrtPromptFormat batch
  callBatchAgent E "editBatch" (editPrompt batchSrt initialTranslations blueprint)
    batch GEMINI_TRANSLATION_MODEL

/-- Translation of `qaBatch`. -/
def qaBatch (E : Env) (batch : List SrtLine) (editedTranslations : List Json)
    (blueprint : Json) : Except Fault (List Json) :=
  let batchSrt := toSrtPromptFormat batch
  callBatchAgent E "qaBatch" (qaPrompt batchSrt editedTranslations blueprint)
    batch GEMINI_TRANSLATION_MODEL

/-- Translation of `phantomSync`. -/
def phantomSync (E : Env) (batch : List SrtLine) (qaTranslations : List Json) :
    Except Fault (List Json) :=
  callBatchAgent E "phantomSync" (phantomSyncPrompt batch qaTranslations)
    batch GEMINI_SYNC_MODEL

/-! ## Translation service (model of the translation service file) -/

/-- Request settings; only `tone` is consumed by the chain. -/
structure Settings where
  tone : String

/-- Batch size constant of the translation service. -/
def BATCH_SIZE : Nat := 25

/-- Concurrency ceiling constant of the translation service. -/
def CONCURRENT_BATCHES : Nat := 4

/-- Translation of `TranslationService._processSingleBatch`: the fixed
four-stage chain, each stage receiving the previous stage's output, the
final stage's output being the batch result; the first fault aborts the
batch. -/
def processSingleBatch (E : Env) (blueprint : Json) (settings : Settings)
    (batch : List SrtLine) : Except Fault (List Json) :=
  match transcreateBatch E batch blueprint settings.tone with
  | .error f => .error f
  | .ok transcreated =>
    match editBatch E batch transcreated blueprint with
    | .error f => .error f
    | .ok edited =>
      match qaBatch E batch edited blueprint with
      | .error f => .error f
      | .ok qaApproved => phantomSync E batch qaApproved

/-- Slicing loop `for (i = 0; i < l.length; i += n) push(l.slice(i, i+n))`,
with explicit fuel (the initial length bounds the number of iterations for
any positive step `n`). -/
def chunkListGo (n : Nat) : Nat → List α → List (List α)
  | 0, _ => []
  | _ + 1, [] => []
  | fuel + 1, x :: xs => (x :: xs).take n :: chunkListGo n fuel ((x :: xs).drop n)

/-- Segmentation of a list into consecutive slices of length `n` (the last
slice may be shorter), as done by the batching and chunking loops of
`executeTranslationChain`. -/
def chunkList (n : Nat) (l : List α) : List (List α) := chunkListGo n l.length l

/-- First rejected task in completion order (model of `Promise.all`
rejecting with the first rejection to occur). -/
def firstRejection {α : Type} (tasks : List (Except Fault α)) : List Nat → Option Fault
  | [] => none
  | i :: rest =>
    match tasks[i]? with
    | some (.error f) => some f
    | _ => firstRejection tasks rest

/-- Values of the resolved tasks, in task-index order. -/
def collectOks {α : Type} : List (Except Fault α) → List α
  | [] => []
  | .ok a :: rest => a :: collectOks rest
  | .error _ :: rest => collectOks rest

/-- Model of `Promise.all(tasks)` under the completion order `order` (the
indices of the tasks in the order they finish): rejects with the first
rejection in completion order, otherwise resolves to the results in
task-index order. -/
def promiseAll {α : Type} (tasks : List (Except Fault α)) (order : List Nat) :
    Except Fault (List α) :=
  match firstRejection tasks order with
  | some f => .error f
  | none => .ok (collectOks tasks)

/-- Chunk loop of `executeTranslationChain`: chunks are awaited strictly in
order (`k` is the current chunk index, selecting the completion order
`sched k` for that chunk's concurrent batch tasks), and the processed chunk
results are appended in chunk order. -/
def runChunks (E : Env) (blueprint : Json) (settings : Settings)
    (sched : Nat → List Nat) : Nat → List (List (List SrtLine)) →
    Except Fault (List (List Json))
  | _, [] => .ok []
  | k, chunk :: rest =>
    match promiseAll (chunk.map (processSingleBatch E blueprint settings)) (sched k) with
    | .error f => .error f
    | .ok processedChunks =>
      match runChunks E blueprint settings sched (k + 1) rest with
      | .error f => .error f
      | .ok more => .ok (processedChunks ++ more)

/-- Translation job record (the fields the chain reads and writes). -/
structure Job where
  subtitleContent : String
  blueprint : Option Json
  status : String
  finalSrt : Option String

/-- Document store keyed by job id (model of the `translationJobs`
collection accessed by `TranslationRepository`). -/
def Store : Type := String → Option Job

/-- Translation of `TranslationRepository.saveFinalSrt`: one atomic update
setting `finalSrt` and `status: 'complete'` on the job with the given id. -/
def saveFinalSrt (store : Store) (jobId : String) (finalSrt : String) : Store :=
  fun id =>
    if id = jobId then
      (store id).map (fun job => { job with finalSrt := some finalSrt, status := "complete" })
    else store id

/-- Reassembly text choice `translatedLines[index] || line.text`:
a missing or falsy translated value falls back to the original text. -/
def mergedText (translated : Option Json) (originalText : String) : String :=
  match translated with
  | none => originalText
  | some v => if jsFalsy v then originalText else jsonToText v

/-- Index-threaded map of the reassembly
`srtLines.map((line, index) => ({ ...line, text: translatedLines[index] || line.text }))`. -/
def reassembleGo (translatedLines : List Json) : Nat → List SrtLine → List SrtLine
  | _, [] => []
  | index, line :: rest =>
    { line with text := mergedText translatedLines[index]? line.text } ::
      reassembleGo translatedLines (index + 1) rest

/-- Reassembly of the translated document in original order. -/
def reassemble (srtLines : List SrtLine) (translatedLines : List Json) : List SrtLine :=
  reassembleGo translatedLines 0 srtLines

/-- Successful chain result (`syncSuggestions` is a placeholder the source
always returns empty). -/
structure ChainResult where
  finalSrt : String
  syncSuggestions : List Json

/-- Translation of `TranslationService.executeTranslationChain`: fetch the
job (missing job is a not-found fault), parse its subtitle content, batch
the lines by `BATCH_SIZE`, process the batches in chunks of
`CONCURRENT_BATCHES` (each chunk joined before the next starts, with
completion order `sched`), flatten in order, reassemble with per-line
fallback, serialize, and persist the final SRT.  The returned store is the
store after the run: unchanged on any fault, updated by `saveFinalSrt`
exactly on success. -/
def executeTranslationChain (E : Env) (store : Store) (jobId : String)
    (confirmedBlueprint : Json) (settings : Settings) (sched : Nat → List Nat) :
    Except Fault ChainResult × Store :=
  match store jobId with
  | none => (.error (.notFound ("Job with ID " ++ jobId ++ " not found.")), store)
  | some job =>
    match parseSrt E job.subtitleContent with
    | .error f => (.error f, store)
    | .ok srtLines =>
      match runChunks E confirmedBlueprint settings sched 0
          (chunkList CONCURRENT_BATCHES (chunkList BATCH_SIZE srtLines)) with
      | .error f => (.error f, store)
      | .ok allTranslatedBatches =>
        (.ok { finalSrt :=
                E.toSrt ((reassemble srtLines allTranslatedBatches.flatten).map
                  mapFromSrtLine)
               syncSuggestions := [] },
          saveFinalSrt store jobId
            (E.toSrt ((reassemble srtLines allTranslatedBatches.flatten).map
              mapFromSrtLine)))

/-! ## Concrete instances used by scenarios and witnesses -/

/-- A simple parsed subtitle line. -/
def sampleLine (i : Nat) : SrtLine :=
  { sequence := some (i : Int)
    startTime := "00:00:01,000"
    endTime := "00:00:03,000"
    duration := 2
    text := "Hello " ++ toString i }

/-- A batch of ten lines. -/
def batchTen : List SrtLine := (List.range 10).map (fun i => sampleLine (i + 1))

/-- A two-line batch. -/
def batchTwo : List SrtLine := [sampleLine 1, sampleLine 2]

/-- A document of 57 lines. -/
def lines57 : List SrtLine := (List.range 57).map (fun i => sampleLine (i + 1))

/-- Nine translated strings. -/
def transNine : List Json := (List.range 9).map (fun i => Json.str ("fa" ++ toString i))

/-- Ten translated strings. -/
def transTen : List Json := (List.range 10).map (fun i => Json.str ("fa" ++ toString i))

/-- A library line with well-ordered timestamps. -/
def libLineTen (i : Nat) : LibLine :=
  { id := toString i
    startTime := "00:00:01,000"
    startSeconds := 1
    endTime := "00:00:03,000"
    endSeconds := 3
    text := "Hello " ++ toString i }

/-- Ten library lines, as delivered by the codec for a ten-line document. -/
def libLinesTen : List LibLine := (List.range 10).map (fun i => libLineTen (i + 1))

/-- A stored job holding a ten-line document. -/
def jobTen : Job :=
  { subtitleContent := "1\n00:00:01,000 --> 00:00:03,000\nHello 1\n"
    blueprint := none
    status := "pending_approval"
    finalSrt := none }

/-- A store holding exactly the job `job-1`. -/
def storeTen : Store := fun id => if id = "job-1" then some jobTen else none

/-- A store holding no job at all. -/
def emptyStore : Store := fun _ => none

/-- Role-identifying opening of the edit-stage prompt. -/
def editRole : List Char := "You are a Senior Editor".data

/-- Role-identifying opening of the QA-stage prompt. -/
def qaRole : List Char := "You are Head of QA".data

/-- Environment whose backend answers every edit-stage prompt with nine
translations and everything else with ten: the edit stage of a ten-line
batch violates the length contract. -/
def mismatchEnv : Env :=
  { gemini := fun prompt _ =>
      if startsWithCS editRole prompt.data then "RESP-NINE" else "RESP-TEN"
    jparse := fun s =>
      if s = "RESP-NINE" then some (Json.obj [("translations", Json.arr transNine)])
      else if s = "RESP-TEN" then some (Json.obj [("translations", Json.arr transTen)])
      else none
    fromSrt := fun _ => .ok libLinesTen
    toSrt := fun _ => "" }

/-- Two-element translation lists used to trace the four stages. -/
def transA : List Json := [Json.str "A1", Json.str "A2"]

/-- Second-stage outputs. -/
def transB : List Json := [Json.str "B1", Json.str "B2"]

/-- Third-stage outputs. -/
def transC : List Json := [Json.str "C1", Json.str "C2"]

/-- Fourth-stage outputs. -/
def transD : List Json := [Json.str "D1", Json.str "D2"]

/-- Environment answering each of the four stages with a distinct
translation list (the pacing-sync stage recognized by its model name, the
others by their prompt openings). -/
def fourStageEnv : Env :=
  { gemini := fun prompt modelName =>
      if modelName = GEMINI_SYNC_MODEL then "RESP-D"
      else if startsWithCS editRole prompt.data then "RESP-B"
      else if startsWithCS qaRole prompt.data then "RESP-C"
      else "RESP-A"
    jparse := fun s =>
      if s = "RESP-A" then some (Json.obj [("translations", Json.arr transA)])
      else if s = "RESP-B" then some (Json.obj [("translations", Json.arr transB)])
      else if s = "RESP-C" then some (Json.obj [("translations", Json.arr transC)])
      else if s = "RESP-D" then some (Json.obj [("translations", Json.arr transD)])
      else none
    fromSrt := fun _ => .ok []
    toSrt := fun _ => "" }

/-- Environment answering every stage call with a single translation. -/
def oneLineEnv : Env :=
  { gemini := fun _ _ => "RESP-ONE"
    jparse := fun s =>
      if s = "RESP-ONE" then some (Json.obj [("translations", Json.arr [Json.str "fa"])])
      else none
    fromSrt := fun _ => .ok []
    toSrt := fun _ => "" }

/-- Two singleton batches. -/
def twoBatches : List (List SrtLine) := [[sampleLine 1], [sampleLine 2]]

/-- Four original lines for the reassembly witness. -/
def lines4 : List SrtLine := [sampleLine 1, sampleLine 2, sampleLine 3, sampleLine 4]

/-- Three translated values (index 3 missing). -/
def trans3 : List Json := [Json.str "fa1", Json.str "fa2", Json.str "fa3"]

/-- A parser recognizing exactly the text `0`. -/
def zeroParser : String → Option Json :=
  fun s => if s = "0" then some (Json.num 0) else none

/-- Library line whose end timestamp precedes its start timestamp
(`srt-parser-2` performs no ordering validation on timestamps); its
conversion fields are the library's `startSeconds`/`endSeconds`. -/
def libRev : LibLine :=
  { id := "1"
    startTime := "00:00:05,000"
    startSeconds := 5
    endTime := "00:00:02,000"
    endSeconds := 2
    text := "Hello" }

/-- Environment whose codec delivers the reversed-timestamp line. -/
def revEnv : Env :=
  { gemini := fun _ _ => ""
    jparse := fun _ => none
    fromSrt := fun _ => .ok [libRev]
    toSrt := fun _ => "" }

/-- A stored job whose subtitle content is whitespace-only. -/
def wsJob : Job :=
  { subtitleContent := " "
    blueprint := none
    status := "pending_approval"
    finalSrt := none }

/-- A store holding exactly the blank-content job `job-ws`. -/
def wsStore : Store := fun id => if id = "job-ws" then some wsJob else none

/-! ## Helper lemmas about trimming and fence stripping -/

theorem wsChar_backtick : wsChar backtick = false := by decide

theorem dropWhile_ws_backtick (rest : List Char) :
    (backtick :: rest).dropWhile wsChar = backtick :: rest := by
  rw [List.dropWhile_cons, wsChar_backtick]
  simp

theorem startsWithCS_append (p r : List Char) : startsWithCS p (p ++ r) = true := by
  induction p with
  | nil => rfl
  | cons c cs ih => simp [startsWithCS, ih]

theorem jsTrimCS_fenced (d : List Char) :
    jsTrimCS (fenceOpenNl ++ (d ++ fenceCloseNl)) = fenceOpenNl ++ (d ++ fenceCloseNl) := by
  have h1 : (fenceOpenNl ++ (d ++ fenceCloseNl)).dropWhile wsChar =
      fenceOpenNl ++ (d ++ fenceCloseNl) := by
    simp only [fenceOpenNl, List.cons_append]
    exact dropWhile_ws_backtick _
  have hrev : (fenceOpenNl ++ (d ++ fenceCloseNl)).reverse =
      backtick :: backtick :: backtick :: '\n' :: (d.reverse ++ fenceOpenNl.reverse) := by
    rw [List.reverse_append, List.reverse_append, List.append_assoc]
    rfl
  unfold jsTrimCS
  rw [h1, hrev, dropWhile_ws_backtick, ← hrev, List.reverse_reverse]

theorem stripFenceCS_fenced (d : List Char) :
    stripFenceCS (fenceOpenNl ++ (d ++ fenceCloseNl)) = d := by
  have he : endsWithCS fenceCloseNl (d ++ fenceCloseNl) = true := by
    unfold endsWithCS
    rw [List.reverse_append]
    exact startsWithCS_append _ _
  have hl : (d ++ fenceCloseNl).length - fenceCloseNl.length = d.length := by
    rw [List.length_append]; omega
  unfold stripFenceCS
  rw [jsTrimCS_fenced]
  simp only [startsWithCS_append, if_true, List.drop_left, he]
  unfold dropEndCS
  rw [hl, List.take_left]

theorem stripFence_fenced (t : String) :
    stripFence ⟨fenceOpenNl ++ (t.data ++ fenceCloseNl)⟩ = t := by
  obtain ⟨d⟩ := t
  show String.mk (stripFenceCS (fenceOpenNl ++ (d ++ fenceCloseNl))) = String.mk d
  rw [stripFenceCS_fenced]

/-! ## Claim C7 -/

/-- C7: every stage response has the conventional code-fence wrapping
stripped before the structural parse — a document wrapped in a fenced
block parses to exactly what the unfenced document parses to — and a
response whose stripped text fails to parse raises the malformed-response
fault carrying the stage name and the raw response text, returned directly
with no retry. -/
theorem fence_strip_then_parse :
    (∀ (jparse : String → Option Json) (t : String) (v : Json) (agentName : String),
      jparse t = some v →
      parseJsonAgentResponse jparse ⟨fenceOpenNl ++ (t.data ++ fenceCloseNl)⟩ agentName =
        .ok v) ∧
    (∀ (jparse : String → Option Json) (raw agentName : String),
      jparse (stripFence raw) = none →
      parseJsonAgentResponse jparse raw agentName = .error (.jsonError agentName raw)) := by
  constructor
  · intro jparse t v agentName h
    unfold parseJsonAgentResponse
    rw [stripFence_fenced, h]
  · intro jparse raw agentName h
    unfold parseJsonAgentResponse
    rw [h]

/-- Witness for C7: a fenced `0` parses to the numeric value `0` under a
parser that accepts exactly the text `0`. -/
theorem fence_strip_then_parse_witness :
    parseJsonAgentResponse zeroParser ⟨fenceOpenNl ++ ("0".data ++ fenceCloseNl)⟩ "stage" =
      .ok (Json.num 0) :=
  fence_strip_then_parse.1 zeroParser "0" (Json.num 0) "stage" (by rfl)

/-! ## Claim C1 -/

/-- C1: for every batch-stage call, a parsed response whose `translations`
field is not an array of exactly the batch length makes the call return the
length-mismatch fault tagged with the stage name and the expected/received
counts — no partial output is returned and nothing is retried; and in the
concrete scenario of a ten-line batch whose edit stage answers nine
translations, the whole chain run aborts with the length-mismatch fault
naming stage `editBatch`, expected 10, received 9. -/
theorem stage_length_mismatch_fatal :
    (∀ (E : Env) (agentName prompt modelName : String) (batch : List SrtLine) (parsed : Json),
      parseJsonAgentResponse E.jparse (E.gemini prompt modelName) agentName = .ok parsed →
      isNullJson parsed = false →
      (∀ ts, asJsonArray (jsonGet parsed "translations") = some ts →
        ts.length ≠ batch.length) →
      callBatchAgent E agentName prompt batch modelName =
        .error (.lengthMismatch agentName batch.length
          (jsLength (jsonGet parsed "translations")))) ∧
    ((executeTranslationChain mismatchEnv storeTen "job-1" (Json.str "bp") ⟨"Formal"⟩
        (fun _ => [0])).1 =
      .error (.lengthMismatch "editBatch" 10 (some 9))) := by
  constructor
  · intro E agentName prompt modelName batch parsed hparse hnn hmis
    simp only [callBatchAgent, hparse, hnn, Bool.false_eq_true, if_false]
    cases hA : asJsonArray (jsonGet parsed "translations") with
    | none => rfl
    | some ts =>
      simp only [hA]
      rw [if_neg (hmis ts hA)]
  · rfl

/-- Witness for C1: the general mismatch conclusion at the concrete
edit-stage scenario. -/
theorem stage_length_mismatch_fatal_witness :
    callBatchAgent mismatchEnv "editBatch" "You are a Senior Editor. Review."
      batchTen GEMINI_TRANSLATION_MODEL =
      .error (.lengthMismatch "editBatch" 10 (some 9)) :=
  stage_length_mismatch_fatal.1 mismatchEnv "editBatch" "You are a Senior Editor. Review."
    GEMINI_TRANSLATION_MODEL batchTen
    (Json.obj [("translations", Json.arr transNine)])
    (by rfl) (by rfl)
    (by
      intro ts hts
      rw [show asJsonArray (jsonGet (Json.obj [("translations", Json.arr transNine)])
        "translations") = some transNine from rfl] at hts
      cases hts
      decide)

/-! ## Claim C4 -/

/-- C4: the batch pipeline runs exactly the four stages transcreate, edit,
QA, pacing-sync in fixed order, passing each stage's output into the next
stage's call; with the three leading stages succeeding, the batch result is
exactly the pacing-sync outcome, and the first stage fault aborts the batch
with that fault — no stage is retried or skipped. -/
theorem batch_pipeline_four_stages (E : Env) (blueprint : Json) (settings : Settings)
    (batch : List SrtLine) :
    (∀ t e q fin,
      transcreateBatch E batch blueprint settings.tone = .ok t →
      editBatch E batch t blueprint = .ok e →
      qaBatch E batch e blueprint = .ok q →
      phantomSync E batch q = .ok fin →
      processSingleBatch E blueprint settings batch = .ok fin) ∧
    (∀ f, transcreateBatch E batch blueprint settings.tone = .error f →
      processSingleBatch E blueprint settings batch = .error f) ∧
    (∀ t f, transcreateBatch E batch blueprint settings.tone = .ok t →
      editBatch E batch t blueprint = .error f →
      processSingleBatch E blueprint settings batch = .error f) ∧
    (∀ t e f, transcreateBatch E batch blueprint settings.tone = .ok t →
      editBatch E batch t blueprint = .ok e →
      qaBatch E batch e blueprint = .error f →
      processSingleBatch E blueprint settings batch = .error f) ∧
    (∀ t e q, transcreateBatch E batch blueprint settings.tone = .ok t →
      editBatch E batch t blueprint = .ok e →
      qaBatch E batch e blueprint = .ok q →
      processSingleBatch E blueprint settings batch = phantomSync E batch q) := by
  refine ⟨?_, ?_, ?_, ?_, ?_⟩
  · intro t e q fin h1 h2 h3 h4
    simp only [processSingleBatch, h1, h2, h3, h4]
  · intro f h1
    simp only [processSingleBatch, h1]
  · intro t f h1 h2
    simp only [processSingleBatch, h1, h2]
  · intro t e f h1 h2 h3
    simp only [processSingleBatch, h1, h2, h3]
  · intro t e q h1 h2 h3
    simp only [processSingleBatch, h1, h2, h3]

/-- Witness for C4: with an environment answering each stage distinctly,
the two-line batch flows through all four stages and returns the
pacing-sync stage's output. -/
theorem batch_pipeline_four_stages_witness :
    processSingleBatch fourStageEnv (Json.str "bp") ⟨"Formal"⟩ batchTwo = .ok transD :=
  (batch_pipeline_four_stages fourStageEnv (Json.str "bp") ⟨"Formal"⟩ batchTwo).1
    transA transB transC transD (by rfl) (by rfl) (by rfl) (by rfl)

/-! ## Helper lemmas about segmentation -/

theorem chunkListGo_nil (n fuel : Nat) : chunkListGo n fuel ([] : List α) = [] := by
  cases fuel <;> rfl

theorem chunkListGo_fuel (n : Nat) (hn : 0 < n) :
    ∀ (f1 f2 : Nat) (l : List α), l.length ≤ f1 → l.length ≤ f2 →
      chunkListGo n f1 l = chunkListGo n f2 l := by
  intro f1
  induction f1 with
  | zero =>
    intro f2 l h1 _
    cases l with
    | nil => rw [chunkListGo_nil, chunkListGo_nil]
    | cons x xs => simp at h1
  | succ f1 ih =>
    intro f2 l h1 h2
    cases l with
    | nil => rw [chunkListGo_nil, chunkListGo_nil]
    | cons x xs =>
      cases f2 with
      | zero => simp at h2
      | succ f2 =>
        show (x :: xs).take n :: chunkListGo n f1 ((x :: xs).drop n) =
          (x :: xs).take n :: chunkListGo n f2 ((x :: xs).drop n)
        have hd1 : ((x :: xs).drop n).length ≤ f1 := by
          rw [List.length_drop]
          simp only [List.length_cons] at h1 ⊢
          omega
        have hd2 : ((x :: xs).drop n).length ≤ f2 := by
          rw [List.length_drop]
          simp only [List.length_cons] at h2 ⊢
          omega
        rw [ih f2 _ hd1 hd2]

theorem chunkList_cons (n : Nat) (hn : 0 < n) (x : α) (xs : List α) :
    chunkList n (x :: xs) = (x :: xs).take n :: chunkList n ((x :: xs).drop n) := by
  have h1 : chunkList n (x :: xs) =
      (x :: xs).take n :: chunkListGo n xs.length ((x :: xs).drop n) := rfl
  have h2 : chunkListGo n xs.length ((x :: xs).drop n) = chunkList n ((x :: xs).drop n) := by
    apply chunkListGo_fuel n hn
    · rw [List.length_drop]
      simp only [List.length_cons]
      omega
    · exact le_rfl
  rw [h1, h2]

theorem chunkListGo_flatten (n : Nat) (hn : 0 < n) :
    ∀ (fuel : Nat) (l : List α), l.length ≤ fuel → (chunkListGo n fuel l).flatten = l := by
  intro fuel
  induction fuel with
  | zero =>
    intro l h
    cases l with
    | nil => rfl
    | cons x xs => simp at h
  | succ fuel ih =>
    intro l h
    cases l with
    | nil => rfl
    | cons x xs =>
      show ((x :: xs).take n :: chunkListGo n fuel ((x :: xs).drop n)).flatten = x :: xs
      have hd : ((x :: xs).drop n).length ≤ fuel := by
        rw [List.length_drop]
        simp only [List.length_cons] at h ⊢
        omega
      rw [List.flatten_cons, ih _ hd, List.take_append_drop]

theorem chunkList_flatten (n : Nat) (hn : 0 < n) (l : List α) :
    (chunkList n l).flatten = l :=
  chunkListGo_flatten n hn l.length l le_rfl

theorem chunkListGo_length (n : Nat) (hn : 0 < n) :
    ∀ (fuel : Nat) (l : List α), l.length ≤ fuel →
      (chunkListGo n fuel l).length = (l.length + n - 1) / n := by
  intro fuel
  induction fuel with
  | zero =>
    intro l h
    cases l with
    | nil =>
      show (0 : Nat) = (0 + n - 1) / n
      symm
      apply Nat.div_eq_of_lt
      omega
    | cons x xs => simp at h
  | succ fuel ih =>
    intro l h
    cases l with
    | nil =>
      show (0 : Nat) = (0 + n - 1) / n
      symm
      apply Nat.div_eq_of_lt
      omega
    | cons x xs =>
      show (chunkListGo n fuel ((x :: xs).drop n)).length + 1 = ((x :: xs).length + n - 1) / n
      have hd : ((x :: xs).drop n).length ≤ fuel := by
        rw [List.length_drop]
        simp only [List.length_cons] at h ⊢
        omega
      rw [ih _ hd, List.length_drop]
      simp only [List.length_cons]
      rcases Nat.lt_or_ge n (xs.length + 1) with hlt | hge
      · have e1 : xs.length + 1 - n + n - 1 = xs.length := by omega
        have e2 : xs.length + 1 + n - 1 = xs.length + n := by omega
        rw [e1, e2, Nat.add_div_right _ hn]
      · have e1 : xs.length + 1 - n + n - 1 = n - 1 := by omega
        rw [e1, Nat.div_eq_of_lt (by omega)]
        symm
        apply Nat.div_eq_of_lt_le
        · omega
        · omega

theorem chunkList_length (n : Nat) (hn : 0 < n) (l : List α) :
    (chunkList n l).length = (l.length + n - 1) / n :=
  chunkListGo_length n hn l.length l le_rfl

theorem chunkListGo_mem_length (n : Nat) (hn : 0 < n) :
    ∀ (fuel : Nat) (l c : List α), l.length ≤ fuel →
      c ∈ chunkListGo n fuel l → 0 < c.length ∧ c.length ≤ n := by
  intro fuel
  induction fuel with
  | zero =>
    intro l c h hc
    cases l with
    | nil => cases hc
    | cons x xs => simp at h
  | succ fuel ih =>
    intro l c h hc
    cases l with
    | nil => cases hc
    | cons x xs =>
      have hunf : chunkListGo n (fuel + 1) (x :: xs) =
          (x :: xs).take n :: chunkListGo n fuel ((x :: xs).drop n) := rfl
      rw [hunf] at hc
      rcases List.mem_cons.mp hc with hc | hc
      · subst hc
        rw [List.length_take]
        simp only [List.length_cons]
        omega
      · have hd : ((x :: xs).drop n).length ≤ fuel := by
          rw [List.length_drop]
          simp only [List.length_cons] at h ⊢
          omega
        exact ih _ c hd hc

theorem chunkList_mem_length (n : Nat) (hn : 0 < n) (l c : List α)
    (hc : c ∈ chunkList n l) : 0 < c.length ∧ c.length ≤ n :=
  chunkListGo_mem_length n hn l.length l c le_rfl hc

theorem chunkListGo_getElem_length (n : Nat) (hn : 0 < n) :
    ∀ (fuel : Nat) (l : List α) (i : Nat) (c : List α), l.length ≤ fuel →
      (chunkListGo n fuel l)[i]? = some c →
      i + 1 < (chunkListGo n fuel l).length → c.length = n := by
  intro fuel
  induction fuel with
  | zero =>
    intro l i c h hc _
    cases l with
    | nil => simp [chunkListGo_nil] at hc
    | cons x xs => simp at h
  | succ fuel ih =>
    intro l i c h hc hlt
    cases l with
    | nil => simp [chunkListGo_nil] at hc
    | cons x xs =>
      have hunf : chunkListGo n (fuel + 1) (x :: xs) =
          (x :: xs).take n :: chunkListGo n fuel ((x :: xs).drop n) := rfl
      rw [hunf] at hc hlt
      have hd : ((x :: xs).drop n).length ≤ fuel := by
        rw [List.length_drop]
        simp only [List.length_cons] at h ⊢
        omega
      cases i with
      | zero =>
        rw [List.getElem?_cons_zero] at hc
        cases hc
        simp only [List.length_cons] at hlt
        have hrest : chunkListGo n fuel ((x :: xs).drop n) ≠ [] := by
          intro he
          rw [he] at hlt
          simp at hlt
        have hdne : (x :: xs).drop n ≠ [] := by
          intro he
          rw [he, chunkListGo_nil] at hrest
          exact hrest rfl
        have hlen : n < (x :: xs).length := by
          by_contra hle
          push_neg at hle
          exact hdne (List.drop_eq_nil_iff.mpr hle)
        rw [List.length_take]
        simp only [List.length_cons] at hlen ⊢
        omega
      | succ i =>
        rw [List.getElem?_cons_succ] at hc
        simp only [List.length_cons] at hlt
        exact ih _ i c hd hc (by omega)

theorem chunkList_getElem_length (n : Nat) (hn : 0 < n) (l : List α) (i : Nat)
    (c : List α) (hc : (chunkList n l)[i]? = some c)
    (hlt : i + 1 < (chunkList n l).length) : c.length = n :=
  chunkListGo_getElem_length n hn l.length l i c le_rfl hc hlt

/-! ## Claim C3 -/

/-- C3: segmenting the parsed document with `BATCH_SIZE = 25` yields
exactly `ceil(N/25)` batches (written `(N + 25 - 1) / 25` in natural
division) tiling the document with no gaps or overlaps — their
concatenation is the original sequence — each batch non-empty and of
length 25 except possibly the last; 57 lines yield sizes `[25, 25, 7]`. -/
theorem segmentation_exact (l : List SrtLine) :
    (chunkList BATCH_SIZE l).flatten = l ∧
    (chunkList BATCH_SIZE l).length = (l.length + BATCH_SIZE - 1) / BATCH_SIZE ∧
    (∀ c ∈ chunkList BATCH_SIZE l, 0 < c.length ∧ c.length ≤ BATCH_SIZE) ∧
    (∀ (i : Nat) (c : List SrtLine), (chunkList BATCH_SIZE l)[i]? = some c →
      i + 1 < (chunkList BATCH_SIZE l).length → c.length = BATCH_SIZE) ∧
    (chunkList BATCH_SIZE lines57).map List.length = [25, 25, 7] := by
  have hb : 0 < BATCH_SIZE := by decide
  exact ⟨chunkList_flatten _ hb l, chunkList_length _ hb l,
    fun c hc => chunkList_mem_length _ hb l c hc,
    fun i c hc hlt => chunkList_getElem_length _ hb l i c hc hlt,
    by decide⟩

/-- Witness for C3: the first of the three batches of the 57-line document
has length exactly `BATCH_SIZE`. -/
theorem segmentation_exact_witness :
    ((chunkList BATCH_SIZE lines57)[0]?.getD []).length = BATCH_SIZE :=
  (segmentation_exact lines57).2.2.2.1 0 ((chunkList BATCH_SIZE lines57)[0]?.getD [])
    (by rfl) (by decide)

/-! ## Helper lemmas about the chunk scheduler -/

theorem firstRejection_none {α : Type} (tasks : List (Except Fault α))
    (h : ∀ (i : Nat) (f : Fault), tasks[i]? = some (.error f) → False) :
    ∀ order, firstRejection tasks order = none := by
  intro order
  induction order with
  | nil => rfl
  | cons i rest ih =>
    show (match tasks[i]? with
      | some (.error f) => some f
      | _ => firstRejection tasks rest) = none
    cases ht : tasks[i]? with
    | none =>
      simp only [ht]
      exact ih
    | some t =>
      cases t with
      | error f => exact (h i f ht).elim
      | ok a =>
        simp only [ht]
        exact ih

theorem collectOks_map {α β : Type} (fn : β → Except Fault α) (g : β → α) :
    ∀ (l : List β), (∀ b ∈ l, fn b = .ok (g b)) → collectOks (l.map fn) = l.map g := by
  intro l
  induction l with
  | nil => intro _; rfl
  | cons b bs ih =>
    intro h
    rw [List.map_cons, List.map_cons, h b (List.mem_cons_self b bs)]
    show g b :: collectOks (bs.map fn) = g b :: bs.map g
    rw [ih (fun x hx => h x (List.mem_cons_of_mem b hx))]

theorem promiseAll_map_ok {α β : Type} (fn : β → Except Fault α) (g : β → α)
    (l : List β) (order : List Nat) (h : ∀ b ∈ l, fn b = .ok (g b)) :
    promiseAll (l.map fn) order = .ok (l.map g) := by
  have hnone : firstRejection (l.map fn) order = none := by
    apply firstRejection_none
    intro i f hf
    rw [List.getElem?_map] at hf
    cases hl : l[i]? with
    | none =>
      rw [hl] at hf
      simp at hf
    | some b =>
      rw [hl] at hf
      simp only [Option.map_some'] at hf
      rw [h b (List.getElem?_mem hl)] at hf
      simp at hf
  unfold promiseAll
  rw [hnone, collectOks_map fn g l h]

theorem runChunks_all_ok (E : Env) (bp : Json) (st : Settings)
    (g : List SrtLine → List Json) (sched : Nat → List Nat) :
    ∀ (chunks : List (List (List SrtLine))) (k : Nat),
      (∀ chunk ∈ chunks, ∀ b ∈ chunk, processSingleBatch E bp st b = .ok (g b)) →
      runChunks E bp st sched k chunks = .ok (chunks.flatten.map g) := by
  intro chunks
  induction chunks with
  | nil => intro k _; rfl
  | cons c rest ih =>
    intro k h
    show (match promiseAll (c.map (processSingleBatch E bp st)) (sched k) with
      | Except.error f => Except.error f
      | Except.ok processedChunks =>
        match runChunks E bp st sched (k + 1) rest with
        | Except.error f => Except.error f
        | Except.ok more => Except.ok (processedChunks ++ more)) =
      Except.ok ((c :: rest).flatten.map g)
    rw [promiseAll_map_ok _ g c (sched k) (h c (List.mem_cons_self c rest))]
    rw [ih (k + 1) (fun ch hch b hb => h ch (List.mem_cons_of_mem c hch) b hb)]
    show Except.ok (c.map g ++ rest.flatten.map g) = .ok ((c :: rest).flatten.map g)
    rw [List.flatten_cons, List.map_append]

/-! ## Claim C2 -/

/-- C2: the batches are grouped into chunks of at most
`CONCURRENT_BATCHES = 4`, chunks are joined strictly in order (the
recursion of `runChunks` does not touch chunk `k + 1` before chunk `k`'s
join), and for every valid completion order of the concurrent per-batch
calls, a fully successful run merges the per-batch outputs exactly in
original batch order — the conclusion does not mention the completion
schedule, so any two valid schedules produce the same merged result. -/
theorem scheduler_order_independent (E : Env) (bp : Json) (st : Settings)
    (batches : List (List SrtLine)) (g : List SrtLine → List Json)
    (sched : Nat → List Nat)
    (hvalid : ∀ (k : Nat) (c : List (List SrtLine)),
      (chunkList CONCURRENT_BATCHES batches)[k]? = some c →
      List.Perm (sched k) (List.range c.length))
    (hok : ∀ b ∈ batches, processSingleBatch E bp st b = .ok (g b)) :
    runChunks E bp st sched 0 (chunkList CONCURRENT_BATCHES batches) =
      .ok (batches.map g) ∧
    (∀ c ∈ chunkList CONCURRENT_BATCHES batches, c.length ≤ CONCURRENT_BATCHES) := by
  have hc4 : 0 < CONCURRENT_BATCHES := by decide
  constructor
  · have hmem : ∀ chunk ∈ chunkList CONCURRENT_BATCHES batches, ∀ b ∈ chunk,
        processSingleBatch E bp st b = .ok (g b) := by
      intro chunk hch b hb
      apply hok
      have hbf : b ∈ (chunkList CONCURRENT_BATCHES batches).flatten :=
        List.mem_flatten.mpr ⟨chunk, hch, hb⟩
      rwa [chunkList_flatten _ hc4] at hbf
    rw [runChunks_all_ok E bp st g sched _ 0 hmem, chunkList_flatten _ hc4]
  · intro c hc
    exact (chunkList_mem_length _ hc4 _ c hc).2

/-- Witness for C2: two singleton batches in one chunk, completing in
reversed order `[1, 0]`, still merge as batch 1 then batch 2. -/
theorem scheduler_order_independent_witness :
    runChunks oneLineEnv (Json.str "bp") ⟨"Formal"⟩ (fun _ => [1, 0]) 0
      (chunkList CONCURRENT_BATCHES twoBatches) =
      .ok (twoBatches.map (fun _ => [Json.str "fa"])) ∧
    (∀ c ∈ chunkList CONCURRENT_BATCHES twoBatches, c.length ≤ CONCURRENT_BATCHES) :=
  scheduler_order_independent oneLineEnv (Json.str "bp") ⟨"Formal"⟩ twoBatches
    (fun _ => [Json.str "fa"]) (fun _ => [1, 0])
    (by
      intro k c hk
      cases k with
      | zero =>
        rw [show (chunkList CONCURRENT_BATCHES twoBatches)[0]? = some twoBatches from rfl] at hk
        cases hk
        decide
      | succ k =>
        rw [show (chunkList CONCURRENT_BATCHES twoBatches)[k + 1]? = none from rfl] at hk
        exact Option.noConfusion hk)
    (by
      intro b hb
      rw [show twoBatches = [[sampleLine 1], [sampleLine 2]] from rfl] at hb
      cases hb with
      | head => rfl
      | tail _ hb2 =>
        cases hb2 with
        | head => rfl
        | tail _ hb3 => cases hb3)

/-! ## Helper lemmas about reassembly -/

theorem reassembleGo_length (ts : List Json) :
    ∀ (k : Nat) (l : List SrtLine), (reassembleGo ts k l).length = l.length := by
  intro k l
  induction l generalizing k with
  | nil => rfl
  | cons x xs ih => simp only [reassembleGo, List.length_cons, ih]

theorem reassembleGo_getElem? (ts : List Json) :
    ∀ (l : List SrtLine) (k i : Nat),
      (reassembleGo ts k l)[i]? =
        (l[i]?).map (fun line => { line with text := mergedText ts[k + i]? line.text }) := by
  intro l
  induction l with
  | nil => intro k i; simp [reassembleGo]
  | cons x xs ih =>
    intro k i
    cases i with
    | zero =>
      simp only [reassembleGo, List.getElem?_cons_zero, Option.map_some']
      rw [Nat.add_zero]
    | succ i =>
      simp only [reassembleGo, List.getElem?_cons_succ]
      rw [ih (k + 1) i]
      have hk : k + (i + 1) = k + 1 + i := by omega
      rw [hk]

theorem reassembleGo_map_field {β : Type} (F : SrtLine → β)
    (hF : ∀ (line : SrtLine) (s : String), F { line with text := s } = F line)
    (ts : List Json) :
    ∀ (k : Nat) (l : List SrtLine), (reassembleGo ts k l).map F = l.map F := by
  intro k l
  induction l generalizing k with
  | nil => rfl
  | cons x xs ih =>
    simp only [reassembleGo, List.map_cons]
    rw [hF, ih]

/-! ## Claim C5 -/

/-- C5: at reassembly each output position is determined by its own index
via `translatedLines[index] || line.text`: a missing translated value and a
falsy translated value both keep the original line's text (the line is
never dropped — the length is preserved — and never blanked), while a
truthy value replaces the text by exactly that translated value. -/
theorem reassembly_fallback (orig : List SrtLine) (ts : List Json) (i : Nat)
    (h : i < orig.length) :
    (reassemble orig ts).length = orig.length ∧
    (ts[i]? = none →
      ((reassemble orig ts)[i]?).map SrtLine.text = (orig[i]?).map SrtLine.text) ∧
    (∀ v, ts[i]? = some v → jsFalsy v = true →
      ((reassemble orig ts)[i]?).map SrtLine.text = (orig[i]?).map SrtLine.text) ∧
    (∀ v, ts[i]? = some v → jsFalsy v = false →
      ((reassemble orig ts)[i]?).map SrtLine.text = some (jsonToText v)) := by
  have hkey : ((reassemble orig ts)[i]?).map SrtLine.text =
      (orig[i]?).map (fun line => mergedText ts[i]? line.text) := by
    rw [show reassemble orig ts = reassembleGo ts 0 orig from rfl,
      reassembleGo_getElem? ts orig 0 i, Option.map_map]
    simp only [Nat.zero_add]
    rfl
  refine ⟨reassembleGo_length ts 0 orig, ?_, ?_, ?_⟩
  · intro hnone
    rw [hkey, hnone]
    rfl
  · intro v hv hf
    rw [hkey, hv]
    have hfun : (fun line : SrtLine => mergedText (some v) line.text) = SrtLine.text := by
      funext line
      simp [mergedText, hf]
    rw [hfun]
  · intro v hv hf
    obtain ⟨line, ho⟩ : ∃ line, orig[i]? = some line :=
      ⟨orig[i], List.getElem?_eq_getElem h⟩
    rw [hkey, hv, ho]
    simp [mergedText, hf]

/-- Witness for C5: with four original lines and only three translated
values, position 3 keeps the original line's text. -/
theorem reassembly_fallback_witness :
    ((reassemble lines4 trans3)[3]?).map SrtLine.text = (lines4[3]?).map SrtLine.text :=
  (reassembly_fallback lines4 trans3 3 (by decide)).2.1 (by rfl)

/-! ## Claim C6 -/

/-- C6: the reassembled document has the same length as the original parsed
document and, position by position, the same sequence numbers, start and
end timestamps, and durations — reassembly changes only the text field. -/
theorem reassembly_frame (orig : List SrtLine) (ts : List Json) :
    (reassemble orig ts).length = orig.length ∧
    (reassemble orig ts).map SrtLine.sequence = orig.map SrtLine.sequence ∧
    (reassemble orig ts).map SrtLine.startTime = orig.map SrtLine.startTime ∧
    (reassemble orig ts).map SrtLine.endTime = orig.map SrtLine.endTime ∧
    (reassemble orig ts).map SrtLine.duration = orig.map SrtLine.duration :=
  ⟨reassembleGo_length ts 0 orig,
   reassembleGo_map_field SrtLine.sequence (fun _ _ => rfl) ts 0 orig,
   reassembleGo_map_field SrtLine.startTime (fun _ _ => rfl) ts 0 orig,
   reassembleGo_map_field SrtLine.endTime (fun _ _ => rfl) ts 0 orig,
   reassembleGo_map_field SrtLine.duration (fun _ _ => rfl) ts 0 orig⟩

/-! ## Claim C8 -/

/-- C8: a chain run for a job id the store does not hold fails immediately
with the not-found fault and leaves the store untouched; every faulting run
(at any step) returns the store unchanged — no status mutation, no final
text written; a successful run returns the store updated by `saveFinalSrt`
with the run's final text, which marks the job `complete` while setting
`finalSrt`, and this write happens only on the all-batches-succeeded
path. -/
theorem chain_persistence (E : Env) (store : Store) (jobId : String) (bp : Json)
    (st : Settings) (sched : Nat → List Nat) :
    (store jobId = none →
      executeTranslationChain E store jobId bp st sched =
        (.error (.notFound ("Job with ID " ++ jobId ++ " not found.")), store)) ∧
    (∀ f, (executeTranslationChain E store jobId bp st sched).1 = .error f →
      (executeTranslationChain E store jobId bp st sched).2 = store) ∧
    (∀ r, (executeTranslationChain E store jobId bp st sched).1 = .ok r →
      (executeTranslationChain E store jobId bp st sched).2 =
        saveFinalSrt store jobId r.finalSrt) ∧
    (∀ (job : Job) (s : String), store jobId = some job →
      saveFinalSrt store jobId s jobId =
        some { job with finalSrt := some s, status := "complete" }) := by
  refine ⟨?_, ?_, ?_, ?_⟩
  · intro hnone
    unfold executeTranslationChain
    rw [hnone]
  · intro f
    unfold executeTranslationChain
    split
    · intro _; rfl
    · split
      · intro _; rfl
      · split
        · intro _; rfl
        · intro hcontra
          exact Except.noConfusion hcontra
  · intro r
    unfold executeTranslationChain
    split
    · intro hcontra
      exact Except.noConfusion hcontra
    · split
      · intro hcontra
        exact Except.noConfusion hcontra
      · split
        · intro hcontra
          exact Except.noConfusion hcontra
        · intro hr
          injection hr with hr
          rw [← hr]
  · intro job s hjob
    show (if jobId = jobId then
        (store jobId).map (fun j => { j with finalSrt := some s, status := "complete" })
      else store jobId) = some { job with finalSrt := some s, status := "complete" }
    rw [if_pos rfl, hjob]
    rfl

/-- Witness for C8: a chain run over an empty store aborts with the
not-found fault naming the job id, leaving the store unchanged. -/
theorem chain_persistence_witness :
    executeTranslationChain mismatchEnv emptyStore "missing-job" (Json.str "bp")
      ⟨"Formal"⟩ (fun _ => [0]) =
      (.error (.notFound ("Job with ID " ++ "missing-job" ++ " not found.")), emptyStore) :=
  (chain_persistence mismatchEnv emptyStore "missing-job" (Json.str "bp") ⟨"Formal"⟩
    (fun _ => [0])).1 rfl

/-! ## Claim C10 -/

/-- C10: the decoder raises a bad-request fault — a fault kind distinct
from not-found, malformed-response and length-mismatch — whenever the raw
subtitle content is empty or whitespace-only (the non-string case is
vacuous in this typed embedding), and it wraps a parse failure of the
underlying SRT library in the same bad-request fault; consequently a chain
run over a job whose stored content is blank or unparseable fails with a
bad-request fault. -/
theorem decode_bad_request (E : Env) (s : String) :
    (jsTrimStr s = "" →
      parseSrt E s = .error (.badRequest "SRT content must be a non-empty string." none)) ∧
    (∀ msg, jsTrimStr s ≠ "" → E.fromSrt s = .error msg →
      parseSrt E s =
        .error (.badRequest "Failed to parse malformed SRT content." (some msg))) ∧
    (∀ (store : Store) (jobId : String) (job : Job) (bp : Json) (st : Settings)
        (sched : Nat → List Nat),
      store jobId = some job → job.subtitleContent = s →
      (jsTrimStr s = "" ∨ ∃ msg, E.fromSrt s = .error msg) →
      ∃ m om, (executeTranslationChain E store jobId bp st sched).1 =
        .error (.badRequest m om)) ∧
    (∀ (m : String) (om : Option String),
      (∀ m2, Fault.badRequest m om ≠ Fault.notFound m2) ∧
      (∀ a r, Fault.badRequest m om ≠ Fault.jsonError a r) ∧
      (∀ a e rc, Fault.badRequest m om ≠ Fault.lengthMismatch a e rc)) := by
  refine ⟨?_, ?_, ?_, ?_⟩
  · intro hws
    unfold parseSrt
    rw [if_pos hws]
  · intro msg hws hlib
    unfold parseSrt
    rw [if_neg hws, hlib]
  · intro store jobId job bp st sched hstore hcontent hbad
    have hperr : ∃ m om, parseSrt E job.subtitleContent =
        .error (.badRequest m om) := by
      rw [hcontent]
      rcases hbad with hws | ⟨msg, hlib⟩
      · unfold parseSrt
        rw [if_pos hws]
        exact ⟨_, _, rfl⟩
      · unfold parseSrt
        by_cases hts : jsTrimStr s = ""
        · rw [if_pos hts]
          exact ⟨_, _, rfl⟩
        · rw [if_neg hts, hlib]
          exact ⟨_, _, rfl⟩
    obtain ⟨m, om, hp⟩ := hperr
    refine ⟨m, om, ?_⟩
    unfold executeTranslationChain
    simp only [hstore, hp]
  · intro m om
    exact ⟨fun m2 h => Fault.noConfusion h, fun a r h => Fault.noConfusion h,
      fun a e rc h => Fault.noConfusion h⟩

/-- Witness for C10: a chain run over the stored whitespace-only job fails
with a bad-request fault. -/
theorem decode_bad_request_witness :
    ∃ m om, (executeTranslationChain mismatchEnv wsStore "job-ws" (Json.str "bp")
      ⟨"Formal"⟩ (fun _ => [0])).1 = .error (.badRequest m om) :=
  (decode_bad_request mismatchEnv " ").2.2.1 wsStore "job-ws" wsJob (Json.str "bp")
    ⟨"Formal"⟩ (fun _ => [0]) rfl rfl (Or.inl rfl)

/-! ## Claim C9 -/

/-- Every line the mapping produces has duration exactly `0`: the
repository subtracts the properties `startTimeSeconds`/`endTimeSeconds`,
which the library's line object does not carry (its fields are
`startSeconds`/`endSeconds`), so the difference is `NaN` and the `isNaN`
guard fires on every line. -/
theorem mapToSrtLine_duration (libLine : LibLine) :
    (mapToSrtLine libLine).duration = 0 := rfl

/-- C9: for every raw subtitle input the decoder accepts, every `TimedLine`
it produces has `durationSeconds ≥ 0`.  The bound holds degenerately: both
timestamp-seconds property reads miss the library's field names, so the
computed difference is always `NaN` and the `isNaN` guard maps every
duration to `0`. -/
theorem decoder_duration_nonneg (E : Env) (raw : String) (lines : List SrtLine)
    (h : parseSrt E raw = .ok lines) : ∀ line ∈ lines, 0 ≤ line.duration := by
  intro line hline
  unfold parseSrt at h
  by_cases hts : jsTrimStr raw = ""
  · rw [if_pos hts] at h
    exact Except.noConfusion h
  · rw [if_neg hts] at h
    cases hf : E.fromSrt raw with
    | error msg =>
      rw [hf] at h
      exact Except.noConfusion h
    | ok srtArray =>
      rw [hf] at h
      injection h with h
      subst h
      obtain ⟨lib, _, hmap⟩ := List.mem_map.mp hline
      rw [← hmap, mapToSrtLine_duration]

/-- Witness for C9: a concrete accepted document — even one whose line has
its end timestamp before its start timestamp — decodes to a line with
duration `0 ≥ 0`. -/
theorem decoder_duration_nonneg_witness :
    0 ≤ (mapToSrtLine libRev).duration :=
  decoder_duration_nonneg revEnv "1\n00:00:05,000 --> 00:00:02,000\nHello\n"
    [mapToSrtLine libRev] (by rfl) (mapToSrtLine libRev)
    (List.mem_singleton.mpr rfl)

end PST
